import Mathlib

/-!
Shallow embedding of the `dungeon_and_cards` crate (Scoundrel card game):
`suit.rs`, `rank.rs`, `card.rs`, `deck.rs` and `scoundrel.rs`, together with
theorems checking the natural-language specification against it.

Machine integers: `life_points` is a Rust `u8`; it is modelled as `ℤ` (so
that non-negativity is a real statement).  All subtractions on it in the
source are guarded (`monster.rank() >= self.life_points`,
`attack_power >= self.life_points`), so the `u8` subtraction never wraps or
panics and the `ℤ` model agrees with the `u8` semantics on every input the
theorems range over; additions (`life_points + rank`) stay far below 256 on
the reachable states the healing theorems are stated on.  Rank values are
`ℕ` in `[1,13]`; the `Sub` impls in `rank.rs` use `saturating_sub`, which is
exactly truncated `ℕ` subtraction.
-/

namespace DandC

/-- The four suits, in the declaration (and `EnumIter`) order of `suit.rs`. -/
inductive Suit where
  | Spades
  | Diamonds
  | Clubs
  | Hearts
deriving DecidableEq

/-- The thirteen ranks, in the declaration (and `EnumIter`) order of `rank.rs`. -/
inductive Rank where
  | Ace
  | Two
  | Three
  | Four
  | Five
  | Six
  | Seven
  | Eight
  | Nine
  | Ten
  | Jack
  | Queen
  | King
deriving DecidableEq

/-- Rust `impl From<Rank> for u8` in `rank.rs`. -/
def Rank.val : Rank → ℕ
  | .Ace => 1
  | .Two => 2
  | .Three => 3
  | .Four => 4
  | .Five => 5
  | .Six => 6
  | .Seven => 7
  | .Eight => 8
  | .Nine => 9
  | .Ten => 10
  | .Jack => 11
  | .Queen => 12
  | .King => 13

/-- A playing card (`card.rs`). -/
structure Card where
  suit : Suit
  rank : Rank
deriving DecidableEq

/-- Rust `Card::new` in `card.rs`. -/
def Card.new (suit : Suit) (rank : Rank) : Card := ⟨suit, rank⟩

/-- Rust `Suit::iter()` (strum `EnumIter`): variants in declaration order. -/
def Suit.iter : List Suit := [.Spades, .Diamonds, .Clubs, .Hearts]

/-- Rust `Rank::iter()` (strum `EnumIter`): variants in declaration order. -/
def Rank.iter : List Rank :=
  [.Ace, .Two, .Three, .Four, .Five, .Six, .Seven, .Eight, .Nine, .Ten,
   .Jack, .Queen, .King]

/-- The deck of `deck.rs`: an ordered card sequence, the original size, and
the banned set.  The Rust `HashSet<Card>` is only ever queried through
`contains`, so it is modelled as a list with membership. -/
structure Deck where
  cards : List Card
  size : ℕ
  banned_cards : Option (List Card)
deriving DecidableEq

/-- Rust `Deck::new` in `deck.rs`: the 52-card product of suits and ranks in
iterator order, with the banned cards filtered out when a banned set is
given. -/
def Deck.new (banned : Option (List Card)) : Deck :=
  let cards :=
    match banned with
    | some banned_cards =>
        (Suit.iter.flatMap fun suit => Rank.iter.map fun rank => Card.mk suit rank).filter
          fun card => decide (card ∉ banned_cards)
    | none =>
        Suit.iter.flatMap fun suit => Rank.iter.map fun rank => Card.mk suit rank
  { cards := cards, size := cards.length, banned_cards := banned }

/-- Rust `Deck::contains` in `deck.rs`. -/
def Deck.contains (d : Deck) (card : Card) : Bool := decide (card ∈ d.cards)

/-- Rust `Deck::draw` in `deck.rs`: `n = 0` returns an empty draw and leaves the
deck alone; drawing more cards than remain panics (modelled as `none`);
otherwise the first `n` cards are drained from the front. -/
def Deck.draw (d : Deck) (number_of_draws : ℕ) : Option (List Card × Deck) :=
  if number_of_draws = 0 then
    some ([], d)
  else if number_of_draws > d.cards.length then
    none
  else
    some (d.cards.take number_of_draws, { d with cards := d.cards.drop number_of_draws })

/-- Rust `Deck::len` in `deck.rs`. -/
def Deck.len (d : Deck) : ℕ := d.cards.length

/-- Rust `Deck::is_empty` in `deck.rs`. -/
def Deck.is_empty (d : Deck) : Bool := d.cards.isEmpty

/-- Modelled from the spec: `Deck::bottom` is called by `run_away` in
`scoundrel.rs` (`self.deck.bottom(&mut self.room)`) but its definition is
not among the provided sources.  The spec describes it as
`insert_at_bottom(cards)`: appends a sequence to the end in the given
order; and `run_away` as: the entire 4-card hand is appended to the bottom
of the deck, the hand is cleared (the `&mut Vec` argument is drained, as
`Vec::append` does).  The result pairs the new deck with the drained
hand. -/
def Deck.bottom (d : Deck) (room : List Card) : Deck × List Card :=
  ({ d with cards := d.cards ++ room }, [])

/-- Rust `DeckBuilder` in `deck.rs`. -/
structure DeckBuilder where
  banned_cards : Option (List Card)

/-- Rust `DeckBuilder::new`. -/
def DeckBuilder.new : DeckBuilder := ⟨none⟩

/-- Rust `DeckBuilder::ban_card`: inserts one card into the banned set. -/
def DeckBuilder.ban_card (b : DeckBuilder) (card : Card) : DeckBuilder :=
  ⟨some (b.banned_cards.getD [] ++ [card])⟩

/-- Rust `DeckBuilder::ban_cards`: extends the banned set with a sequence. -/
def DeckBuilder.ban_cards (b : DeckBuilder) (cards : List Card) : DeckBuilder :=
  ⟨some (b.banned_cards.getD [] ++ cards)⟩

/-- Rust `DeckBuilder::build`. -/
def DeckBuilder.build (b : DeckBuilder) : Deck := Deck.new b.banned_cards

/-- Rust `Deck::builder`. -/
def Deck.builder : DeckBuilder := DeckBuilder.new

/-! ## The Scoundrel game (`scoundrel.rs`) -/

/-- Rust `MAX_LIFE_POINTS` in `scoundrel.rs`. -/
def MAX_LIFE_POINTS : ℤ := 20

/-- Rust `TOTAL_ROOMS` in `scoundrel.rs`. -/
def TOTAL_ROOMS : ℕ := 12

/-- Rust `ROOM_SIZE` in `scoundrel.rs`. -/
def ROOM_SIZE : ℕ := 4

/-- Rust `enum GameState` in `scoundrel.rs`. -/
inductive GameState where
  | InGame
  | Win
  | Lose
deriving DecidableEq

/-- Rust `struct Weapon` in `scoundrel.rs`: the equipped card and the stack of
monsters slain with it (`Vec<Card>` in push order, front-to-back). -/
structure Weapon where
  weapon : Card
  defeated_monsters : List Card
deriving DecidableEq

/-- Rust `Weapon::new`. -/
def Weapon.new (card : Card) : Weapon := ⟨card, []⟩

/-- Rust `Weapon::add_defeated_monster`: an unconditional `Vec::push`, no
validation. -/
def Weapon.add_defeated_monster (w : Weapon) (monster : Card) : Weapon :=
  { w with defeated_monsters := w.defeated_monsters ++ [monster] }

/-- Rust `struct Scoundrel` in `scoundrel.rs`. -/
structure Scoundrel where
  deck : Deck
  life_points : ℤ
  weapon_equipped : Option Weapon
  room_visited : ℕ
  room : List Card
  has_run_away : Bool
deriving DecidableEq

/-- Rust `Scoundrel::BANNED_CARDS`, already mapped through `Card::new` as in
`Scoundrel::new`. -/
def BANNED_CARDS : List Card :=
  [Card.new .Diamonds .Ace, Card.new .Diamonds .Jack,
   Card.new .Diamonds .Queen, Card.new .Diamonds .King,
   Card.new .Hearts .Ace, Card.new .Hearts .Jack,
   Card.new .Hearts .Queen, Card.new .Hearts .King]

/-- Rust `Scoundrel::new`. -/
def Scoundrel.new : Scoundrel :=
  { deck := (Deck.builder.ban_cards BANNED_CARDS).build
    life_points := MAX_LIFE_POINTS
    weapon_equipped := none
    room_visited := 0
    room := []
    has_run_away := false }

/-- Rust `Scoundrel::enter_room`.  The `todo!()` arm (hand size neither 0 nor 1)
and a panicking `draw` are modelled as `none`; on the normal path the
result pairs the returned `GameState` with the updated game. -/
def Scoundrel.enter_room (s : Scoundrel) : Option (GameState × Scoundrel) :=
  if s.room_visited ≥ TOTAL_ROOMS then
    some (.Win, s)
  else
    match s.room.length with
    | 0 =>
        (s.deck.draw 4).map fun (drawn, deck) =>
          (.InGame, { s with room_visited := s.room_visited + 1,
                             room := s.room ++ drawn, deck := deck })
    | 1 =>
        (s.deck.draw 3).map fun (drawn, deck) =>
          (.InGame, { s with room_visited := s.room_visited + 1,
                             room := s.room ++ drawn, deck := deck })
    | _ => none

/-- The two static string error messages `Scoundrel::run_away` can return,
as distinguishable values: `cantRunAwayTwiceInARow` stands for the
cannot-run-away-two-rooms-in-a-row message and `onlyFromNewRoom` for the
can-only-run-away-from-a-new-room message. -/
inductive RunAwayError where
  | cantRunAwayTwiceInARow
  | onlyFromNewRoom
deriving DecidableEq

/-- Rust `Scoundrel::run_away`.  On `Ok` the updated game is returned; the deck
mutation goes through the spec-modelled `Deck.bottom`.  Note the source
never assigns `has_run_away`. -/
def Scoundrel.run_away (s : Scoundrel) : Except RunAwayError Scoundrel :=
  match s.has_run_away with
  | true => .error .cantRunAwayTwiceInARow
  | false =>
      if s.room.length = 4 then
        let (deck, room) := s.deck.bottom s.room
        .ok { s with deck := deck, room := room }
      else
        .error .onlyFromNewRoom

/-- Rust `Scoundrel::fight_barehanded`: `monster.rank() >= self.life_points`
compares the `u8` rank value with the life points. -/
def Scoundrel.fight_barehanded (s : Scoundrel) (monster : Card) :
    GameState × Scoundrel :=
  if (monster.rank.val : ℤ) ≥ s.life_points then
    (.Lose, { s with life_points := 0 })
  else
    (.InGame, { s with life_points := s.life_points - monster.rank.val })

/-- Rust `Scoundrel::can_slay_with_weapon`: `Vec::last` is the most recently
pushed card, and `is_none_or` makes an empty history usable. -/
def Scoundrel.can_slay_with_weapon (monster : Card) (weapon : Weapon) : Bool :=
  match weapon.defeated_monsters.getLast? with
  | none => true
  | some last_monster => decide (last_monster.rank.val > monster.rank.val)

/-- Rust `Scoundrel::calculate_attack_power`:
`(monster.rank() - weapon.weapon.rank().into()).max(0)` — the `Sub<u8> for
Rank` impl is `saturating_sub`, i.e. truncated `ℕ` subtraction. -/
def Scoundrel.calculate_attack_power (monster : Card) (weapon : Weapon) : ℕ :=
  (monster.rank.val - weapon.weapon.rank.val).max 0

/-- Rust `Scoundrel::fight_with_weapon`: returns the `(GameState, Weapon)` pair
of the source together with the updated game. -/
def Scoundrel.fight_with_weapon (s : Scoundrel) (monster : Card)
    (weapon : Weapon) : GameState × Weapon × Scoundrel :=
  if Scoundrel.can_slay_with_weapon monster weapon then
    let attack_power := Scoundrel.calculate_attack_power monster weapon
    let weapon := weapon.add_defeated_monster monster
    if (attack_power : ℤ) ≥ s.life_points then
      (.Lose, weapon, { s with life_points := 0 })
    else
      (.InGame, weapon, { s with life_points := s.life_points - attack_power })
  else
    let (state, s) := s.fight_barehanded monster
    (state, weapon, s)

/-- Rust `Scoundrel::handle_combat`: takes the weapon out, fights, re-equips the
updated weapon. -/
def Scoundrel.handle_combat (s : Scoundrel) (card : Card) :
    GameState × Scoundrel :=
  match s.weapon_equipped with
  | some weapon =>
      let s := { s with weapon_equipped := none }
      let (state, weapon_updated, s) := s.fight_with_weapon card weapon
      (state, { s with weapon_equipped := some weapon_updated })
  | none =>
      let s := { s with weapon_equipped := none }
      s.fight_barehanded card

/-- Rust `Scoundrel::play_card`: dispatch by suit; the hand (`self.room`) is not
touched. -/
def Scoundrel.play_card (s : Scoundrel) (card : Card) : GameState × Scoundrel :=
  match card.suit with
  | .Spades => s.handle_combat card
  | .Clubs => s.handle_combat card
  | .Diamonds => (.InGame, { s with weapon_equipped := some (Weapon.new card) })
  | .Hearts => (.InGame, { s with life_points := min (s.life_points + card.rank.val) 20 })

/-- The states reachable from a fresh game by any sequence of `enter_room`,
`play_card` and `run_away` calls (`play_card` with an arbitrary card — the
source places no hand-membership restriction on it). -/
inductive Reachable : Scoundrel → Prop where
  | new : Reachable Scoundrel.new
  | enter_room {s g s2} : Reachable s → s.enter_room = some (g, s2) → Reachable s2
  | play_card {s c g s2} : Reachable s → s.play_card c = (g, s2) → Reachable s2
  | run_away {s s2} : Reachable s → s.run_away = .ok s2 → Reachable s2

/-- The strictly-decreasing-rank relation on consecutive entries of a
defeated-monster history (each later entry has strictly lower rank). -/
def rank_decreasing (a b : Card) : Prop := b.rank.val < a.rank.val

/-! Concrete scenario states used by witnesses and counterexample theorems.
`Scoundrel::new` does not shuffle, so the deck order is fixed and every
state below is a computable literal. -/

/-- The game after `new` followed by one `enter_room` (hand of 4 cards). -/
def afterRoom1 : Scoundrel :=
  ((Scoundrel.new.enter_room).getD (.InGame, Scoundrel.new)).2

/-- The game after `new`, `enter_room`, and one successful `run_away`. -/
def afterRetreat1 : Scoundrel :=
  (afterRoom1.run_away).toOption.getD afterRoom1

/-- The game after equipping Diamonds-Nine from a fresh game. -/
def gWeapon1 : Scoundrel :=
  (Scoundrel.new.play_card (Card.new .Diamonds .Nine)).2

/-- Rust `gWeapon1` after fighting Clubs-Eight with the weapon. -/
def gWeapon2 : Scoundrel :=
  (gWeapon1.play_card (Card.new .Clubs .Eight)).2

/-- Rust `gWeapon2` after fighting Clubs-Five with the weapon. -/
def gWeapon3 : Scoundrel :=
  (gWeapon2.play_card (Card.new .Clubs .Five)).2

/-! ## Theorems -/

/-- C8: a freshly constructed game has a 44-card deck containing none of the
8 banned cards (Ace, Jack, Queen, King of Diamonds and of Hearts), 20 life
points, no weapon equipped, zero rooms visited, an empty hand, and
`has_run_away = false`. -/
theorem new_game_spec :
    Scoundrel.new.deck.cards.length = 44 ∧
    (∀ c ∈ BANNED_CARDS, c ∉ Scoundrel.new.deck.cards) ∧
    Scoundrel.new.life_points = 20 ∧
    Scoundrel.new.weapon_equipped = none ∧
    Scoundrel.new.room_visited = 0 ∧
    Scoundrel.new.room = [] ∧
    Scoundrel.new.has_run_away = false := by
  decide

/-- C9: `Deck::draw n` fails (panic, modelled as `none`) exactly when `n`
exceeds the number of cards remaining; otherwise it removes the top `n`
cards, returns them in their original top-to-bottom order (the drawn cards
followed by the remaining deck reassemble the original deck), and leaves
the deck with its previous length minus `n` cards. -/
theorem draw_spec (d : Deck) (n : ℕ) :
    (d.draw n = none ↔ d.cards.length < n) ∧
    (∀ drawn d2, d.draw n = some (drawn, d2) →
      drawn.length = n ∧ drawn ++ d2.cards = d.cards ∧
      d2.cards.length = d.cards.length - n) := by
  unfold Deck.draw
  rcases Nat.eq_zero_or_pos n with hn | hn
  · subst hn
    simp
  · rcases Nat.lt_or_ge d.cards.length n with hlt | hge
    · have : n > d.cards.length := hlt
      simp [Nat.pos_iff_ne_zero.mp hn, this, hlt]
    · have hng : ¬ n > d.cards.length := not_lt.mpr hge
      simp only [Nat.pos_iff_ne_zero.mp hn, if_false, hng, if_true]
      constructor
      · simp
      · intro drawn d2 h
        injection h with h
        injection h with h1 h2
        subst h1
        subst h2
        refine ⟨List.length_take_of_le hge, List.take_append_drop n d.cards, ?_⟩
        simp [List.length_drop]

/-- C9 witness: drawing 5 from the full 52-card deck. -/
theorem draw_spec_witness :
    ((Deck.new none).cards.take 5).length = 5 ∧
    (Deck.new none).cards.take 5 ++ (Deck.new none).cards.drop 5
        = (Deck.new none).cards ∧
    ((Deck.new none).cards.drop 5).length = (Deck.new none).cards.length - 5 :=
  (draw_spec (Deck.new none) 5).2 ((Deck.new none).cards.take 5)
    { Deck.new none with cards := (Deck.new none).cards.drop 5 } rfl

/-- C4: barehanded combat against a monster of rank `R` at life `L` gives
`(0, Lose)` when `R ≥ L` and `(L - R, InGame)` otherwise, and in the latter
case the subtraction stays positive (never underflows), thanks to the
guard. -/
theorem fight_barehanded_spec (s : Scoundrel) (monster : Card) :
    ((monster.rank.val : ℤ) ≥ s.life_points →
      s.fight_barehanded monster = (.Lose, { s with life_points := 0 })) ∧
    ((monster.rank.val : ℤ) < s.life_points →
      s.fight_barehanded monster
        = (.InGame, { s with life_points := s.life_points - monster.rank.val }) ∧
      0 < s.life_points - (monster.rank.val : ℤ)) := by
  unfold Scoundrel.fight_barehanded
  constructor
  · intro hge
    rw [if_pos hge]
  · intro hlt
    rw [if_neg (not_le.mpr hlt)]
    exact ⟨rfl, by omega⟩

/-- C4 witness: fighting Clubs-Five barehanded from a fresh game. -/
theorem fight_barehanded_spec_witness :
    Scoundrel.new.fight_barehanded (Card.new .Clubs .Five)
      = (.InGame, { Scoundrel.new with
          life_points := Scoundrel.new.life_points - (Card.new .Clubs .Five).rank.val }) ∧
    0 < Scoundrel.new.life_points - ((Card.new .Clubs .Five).rank.val : ℤ) :=
  (fight_barehanded_spec Scoundrel.new (Card.new .Clubs .Five)).2 (by decide)

/-- Helper: the gating check succeeds exactly when the history is empty or
its last entry has strictly greater rank than the monster. -/
theorem can_slay_iff (monster : Card) (weapon : Weapon) :
    Scoundrel.can_slay_with_weapon monster weapon = true ↔
      (∀ last, weapon.defeated_monsters.getLast? = some last →
        monster.rank.val < last.rank.val) := by
  unfold Scoundrel.can_slay_with_weapon
  cases hl : weapon.defeated_monsters.getLast? with
  | none => simp
  | some last => simp [hl, gt_iff_lt]

/-- C1: with a weapon equipped against a monster (Spades or Clubs): when the
defeated-monster history is non-empty and its last entry does not strictly
outrank the monster, combat falls back entirely to barehanded resolution
with the weapon (history included) unchanged; otherwise the attack value is
`max(0, monster rank - weapon rank)`, the monster is appended to the
history before the lose check (a lethal blow still records the kill), and
the result is life 0 with `Lose` when the attack reaches the current life
points, else `life - attack` with `InGame`. -/
theorem fight_with_weapon_spec (s : Scoundrel) (m : Card) (w : Weapon)
    (hm : m.suit = Suit.Spades ∨ m.suit = Suit.Clubs) :
    ((Scoundrel.calculate_attack_power m w : ℤ)
        = max 0 ((m.rank.val : ℤ) - w.weapon.rank.val)) ∧
    (∀ last, w.defeated_monsters.getLast? = some last →
        last.rank.val ≤ m.rank.val →
      s.fight_with_weapon m w
        = ((s.fight_barehanded m).1, w, (s.fight_barehanded m).2)) ∧
    ((∀ last, w.defeated_monsters.getLast? = some last →
        m.rank.val < last.rank.val) →
      (((Scoundrel.calculate_attack_power m w : ℤ) ≥ s.life_points →
         s.fight_with_weapon m w
           = (.Lose, w.add_defeated_monster m, { s with life_points := 0 })) ∧
       ((Scoundrel.calculate_attack_power m w : ℤ) < s.life_points →
         s.fight_with_weapon m w
           = (.InGame, w.add_defeated_monster m,
              { s with life_points :=
                  s.life_points - Scoundrel.calculate_attack_power m w })))) := by
  refine ⟨?_, ?_, ?_⟩
  · unfold Scoundrel.calculate_attack_power
    rcases Nat.le_total m.rank.val w.weapon.rank.val with h | h
    · have h1 : m.rank.val - w.weapon.rank.val = 0 := Nat.sub_eq_zero_of_le h
      have h2 : ((m.rank.val : ℤ) - w.weapon.rank.val) ≤ 0 := by omega
      rw [h1, max_eq_left h2]
      simp
    · have h2 : (0 : ℤ) ≤ (m.rank.val : ℤ) - w.weapon.rank.val := by omega
      rw [max_eq_right h2]
      have h4 : (m.rank.val - w.weapon.rank.val).max 0
          = m.rank.val - w.weapon.rank.val := Nat.max_zero _
      rw [h4]
      omega
  · intro last hlast hle
    have hcs : Scoundrel.can_slay_with_weapon m w = false := by
      rw [Bool.eq_false_iff]
      intro h
      exact absurd ((can_slay_iff m w).mp h last hlast) (not_lt.mpr hle)
    unfold Scoundrel.fight_with_weapon
    rw [hcs]
    simp
  · intro hok
    have hcs : Scoundrel.can_slay_with_weapon m w = true := (can_slay_iff m w).mpr hok
    constructor
    · intro hge
      unfold Scoundrel.fight_with_weapon
      rw [hcs]
      simp only [if_true]
      rw [if_pos hge]
    · intro hlt
      unfold Scoundrel.fight_with_weapon
      rw [hcs]
      simp only [if_true]
      rw [if_neg (not_le.mpr hlt)]

/-- C1 witness: a fresh game with a bare Diamonds-Nine weapon against
Clubs-Jack — the history is empty, the attack is `11 - 9 = 2 < 20`, the
kill is recorded and life drops to 18. -/
theorem fight_with_weapon_spec_witness :
    ((Scoundrel.calculate_attack_power (Card.new .Clubs .Jack)
        (Weapon.new (Card.new .Diamonds .Nine)) : ℤ)
      = max 0 (((Card.new .Clubs .Jack).rank.val : ℤ)
          - (Weapon.new (Card.new .Diamonds .Nine)).weapon.rank.val)) ∧
    Scoundrel.fight_with_weapon Scoundrel.new (Card.new .Clubs .Jack)
        (Weapon.new (Card.new .Diamonds .Nine))
      = (.InGame,
         (Weapon.new (Card.new .Diamonds .Nine)).add_defeated_monster
           (Card.new .Clubs .Jack),
         { Scoundrel.new with
             life_points := Scoundrel.new.life_points
               - Scoundrel.calculate_attack_power (Card.new .Clubs .Jack)
                   (Weapon.new (Card.new .Diamonds .Nine)) }) :=
  ⟨(fight_with_weapon_spec Scoundrel.new (Card.new .Clubs .Jack)
      (Weapon.new (Card.new .Diamonds .Nine)) (Or.inr rfl)).1,
   ((fight_with_weapon_spec Scoundrel.new (Card.new .Clubs .Jack)
      (Weapon.new (Card.new .Diamonds .Nine)) (Or.inr rfl)).2.2
      (by intro last h; simp [Weapon.new] at h)).2 (by decide)⟩

/-- C5: with 12 rooms visited, `enter_room` returns `Win` and mutates
nothing (the very state is returned).  Below 12 rooms it increments
`room_visited` by exactly 1 and fills the hand to 4 cards, drawing 4 cards
from the deck when the hand is empty and 3 when it holds exactly 1
carried-over card (provided the deck holds enough cards for the draw,
which never panics then). -/
theorem enter_room_spec (s : Scoundrel) :
    (s.room_visited = 12 → s.enter_room = some (.Win, s)) ∧
    (s.room_visited < 12 →
      (s.room.length = 0 → 4 ≤ s.deck.cards.length →
        ∃ s2, s.enter_room = some (.InGame, s2) ∧
          s2.room_visited = s.room_visited + 1 ∧ s2.room.length = 4 ∧
          s2.deck.cards.length = s.deck.cards.length - 4) ∧
      (s.room.length = 1 → 3 ≤ s.deck.cards.length →
        ∃ s2, s.enter_room = some (.InGame, s2) ∧
          s2.room_visited = s.room_visited + 1 ∧ s2.room.length = 4 ∧
          s2.deck.cards.length = s.deck.cards.length - 3)) := by
  constructor
  · intro h12
    have h : s.room_visited ≥ TOTAL_ROOMS := by
      unfold TOTAL_ROOMS
      omega
    unfold Scoundrel.enter_room
    rw [if_pos h]
  · intro hlt
    have hni : ¬ s.room_visited ≥ TOTAL_ROOMS := by
      unfold TOTAL_ROOMS
      omega
    constructor
    · intro h0 hdeck
      have hdraw : s.deck.draw 4
          = some (s.deck.cards.take 4, { s.deck with cards := s.deck.cards.drop 4 }) := by
        unfold Deck.draw
        rw [if_neg (by omega), if_neg (by omega)]
      refine ⟨{ s with room_visited := s.room_visited + 1,
                       room := s.room ++ s.deck.cards.take 4,
                       deck := { s.deck with cards := s.deck.cards.drop 4 } },
              ?_, rfl, ?_, ?_⟩
      · unfold Scoundrel.enter_room
        rw [if_neg hni, h0, hdraw]
        rfl
      · simp [List.length_append, List.length_take, h0]
        omega
      · simp [List.length_drop]
    · intro h1 hdeck
      have hdraw : s.deck.draw 3
          = some (s.deck.cards.take 3, { s.deck with cards := s.deck.cards.drop 3 }) := by
        unfold Deck.draw
        rw [if_neg (by omega), if_neg (by omega)]
      refine ⟨{ s with room_visited := s.room_visited + 1,
                       room := s.room ++ s.deck.cards.take 3,
                       deck := { s.deck with cards := s.deck.cards.drop 3 } },
              ?_, rfl, ?_, ?_⟩
      · unfold Scoundrel.enter_room
        rw [if_neg hni, h1, hdraw]
        rfl
      · simp [List.length_append, List.length_take, h1]
        omega
      · simp [List.length_drop]

/-- C5 witness: at the 12-room boundary `enter_room` is a `Win` no-op, and
from a fresh game (0 rooms visited, empty hand, 44-card deck) it moves to
room 1 with a 4-card hand and a 40-card deck. -/
theorem enter_room_spec_witness :
    Scoundrel.enter_room { Scoundrel.new with room_visited := 12 }
      = some (.Win, { Scoundrel.new with room_visited := 12 }) ∧
    ∃ s2, Scoundrel.new.enter_room = some (.InGame, s2) ∧
      s2.room_visited = Scoundrel.new.room_visited + 1 ∧ s2.room.length = 4 ∧
      s2.deck.cards.length = Scoundrel.new.deck.cards.length - 4 :=
  ⟨(enter_room_spec { Scoundrel.new with room_visited := 12 }).1 rfl,
   ((enter_room_spec Scoundrel.new).2 (by decide)).1 (by decide) (by decide)⟩

/-- C2 (code bug witness): `run_away` never assigns `has_run_away`.  From a
fresh game, after `enter_room` a first `run_away` succeeds, yet the flag is
still `false` afterwards, and the second consecutive `run_away` is rejected
with the not-a-fresh-room error, not with the cannot-run-away-twice error
the spec prescribes. -/
theorem run_away_flag_bug :
    Scoundrel.new.enter_room = some (.InGame, afterRoom1) ∧
    afterRoom1.has_run_away = false ∧
    afterRoom1.run_away = .ok afterRetreat1 ∧
    afterRetreat1.has_run_away = false ∧
    afterRetreat1.run_away = .error RunAwayError.onlyFromNewRoom :=
  ⟨by decide, by decide, rfl, by decide, rfl⟩

/-- C3 (code bug witness): `play_card` does not remove the played card from
the hand.  In the first room the hand holds Spades-Ace; playing it leaves
the hand exactly as it was (same 4 cards, the played card still a
member). -/
theorem play_card_hand_bug :
    (Card.new .Spades .Ace) ∈ afterRoom1.room ∧
    (afterRoom1.play_card (Card.new .Spades .Ace)).2.room = afterRoom1.room ∧
    ((afterRoom1.play_card (Card.new .Spades .Ace)).2.room).length
      = afterRoom1.room.length := by
  refine ⟨by decide, by decide, by decide⟩

/-- Helper: `enter_room` never touches life points, the weapon, or the
run-away flag. -/
theorem enter_room_frame {s : Scoundrel} {g : GameState} {s2 : Scoundrel}
    (h : s.enter_room = some (g, s2)) :
    s2.life_points = s.life_points ∧ s2.weapon_equipped = s.weapon_equipped ∧
    s2.has_run_away = s.has_run_away := by
  unfold Scoundrel.enter_room at h
  split at h
  · injection h with h
    injection h with h1 h2
    subst h2
    exact ⟨rfl, rfl, rfl⟩
  · split at h
    · rcases Option.map_eq_some'.mp h with ⟨⟨drawn, deck⟩, hdrw, hf⟩
      injection hf with hf1 hf2
      subst hf2
      exact ⟨rfl, rfl, rfl⟩
    · rcases Option.map_eq_some'.mp h with ⟨⟨drawn, deck⟩, hdrw, hf⟩
      injection hf with hf1 hf2
      subst hf2
      exact ⟨rfl, rfl, rfl⟩
    · exact Option.noConfusion h

/-- Helper: a successful `run_away` requires the flag down and a 4-card
hand, appends the hand to the bottom of the deck, clears the hand, and
changes nothing else (in particular it leaves `has_run_away` as it was). -/
theorem run_away_ok {s s2 : Scoundrel} (h : s.run_away = .ok s2) :
    s.has_run_away = false ∧ s.room.length = 4 ∧
    s2 = { s with deck := { s.deck with cards := s.deck.cards ++ s.room },
                  room := [] } := by
  unfold Scoundrel.run_away at h
  split at h
  · exact Except.noConfusion h
  · rename_i hb
    simp only [Deck.bottom] at h
    split at h
    · rename_i h4
      injection h with h
      subst h
      exact ⟨hb, h4, rfl⟩
    · exact Except.noConfusion h


/-- Helper: the possible life-point results of barehanded combat — exactly
0, or a guarded subtraction that stays below the old value. -/
theorem fight_barehanded_life_cases (s : Scoundrel) (m : Card) :
    (s.fight_barehanded m).2.life_points = 0 ∨
    (∃ k : ℕ, (k : ℤ) < s.life_points ∧
      (s.fight_barehanded m).2.life_points = s.life_points - k) := by
  unfold Scoundrel.fight_barehanded
  split_ifs with hge
  · left
    rfl
  · right
    exact ⟨m.rank.val, by omega, rfl⟩

/-- Helper: the possible life-point results of weapon combat. -/
theorem fight_with_weapon_life_cases (s : Scoundrel) (m : Card) (w : Weapon) :
    (s.fight_with_weapon m w).2.2.life_points = 0 ∨
    (∃ k : ℕ, (k : ℤ) < s.life_points ∧
      (s.fight_with_weapon m w).2.2.life_points = s.life_points - k) := by
  unfold Scoundrel.fight_with_weapon
  by_cases hcs : Scoundrel.can_slay_with_weapon m w = true
  · rw [if_pos hcs]
    dsimp only []
    split_ifs with hatk
    · left
      rfl
    · right
      exact ⟨Scoundrel.calculate_attack_power m w, by omega, rfl⟩
  · rw [if_neg hcs]
    rcases hfb : s.fight_barehanded m with ⟨st, s2⟩
    have h := fight_barehanded_life_cases s m
    rw [hfb] at h
    exact h

/-- Helper: the possible life-point results of `handle_combat`. -/
theorem handle_combat_life_cases (s : Scoundrel) (c : Card) :
    (s.handle_combat c).2.life_points = 0 ∨
    (∃ k : ℕ, (k : ℤ) < s.life_points ∧
      (s.handle_combat c).2.life_points = s.life_points - k) := by
  unfold Scoundrel.handle_combat
  cases hw : s.weapon_equipped with
  | none =>
      rcases hfb : Scoundrel.fight_barehanded { s with weapon_equipped := none } c
        with ⟨st, s2⟩
      have h := fight_barehanded_life_cases { s with weapon_equipped := none } c
      rw [hfb] at h
      dsimp only []
      exact h
  | some w0 =>
      rcases hfw : Scoundrel.fight_with_weapon { s with weapon_equipped := none } c w0
        with ⟨st, wu, s2⟩
      have h := fight_with_weapon_life_cases { s with weapon_equipped := none } c w0
      rw [hfw] at h
      dsimp only []
      rw [hfw]
      exact h

/-- Helper: the possible life-point results of `play_card`: unchanged,
exactly 0, a guarded subtraction, or the clamped heal. -/
theorem play_card_life_cases (s : Scoundrel) (c : Card) :
    (s.play_card c).2.life_points = s.life_points ∨
    (s.play_card c).2.life_points = 0 ∨
    (∃ k : ℕ, (k : ℤ) < s.life_points ∧
      (s.play_card c).2.life_points = s.life_points - k) ∨
    (s.play_card c).2.life_points = min (s.life_points + c.rank.val) 20 := by
  rcases c with ⟨suit, rank⟩
  cases suit
  case Diamonds => exact .inl rfl
  case Hearts => exact .inr (.inr (.inr rfl))
  case Spades =>
    rcases handle_combat_life_cases s (Card.mk .Spades rank) with h | ⟨k, hk, h⟩
    · exact .inr (.inl h)
    · exact .inr (.inr (.inl ⟨k, hk, h⟩))
  case Clubs =>
    rcases handle_combat_life_cases s (Card.mk .Clubs rank) with h | ⟨k, hk, h⟩
    · exact .inr (.inl h)
    · exact .inr (.inr (.inl ⟨k, hk, h⟩))

/-- Helper: `play_card` keeps life points in `[0, 20]`. -/
theorem play_card_life (s : Scoundrel) (c : Card)
    (h0 : 0 ≤ s.life_points) (h20 : s.life_points ≤ 20) :
    0 ≤ (s.play_card c).2.life_points ∧ (s.play_card c).2.life_points ≤ 20 := by
  rcases play_card_life_cases s c with h | h | ⟨k, hk, h⟩ | h <;> rw [h]
  · exact ⟨h0, h20⟩
  · exact ⟨le_refl 0, by norm_num⟩
  · constructor <;> omega
  · exact ⟨le_min (by positivity) (by norm_num), min_le_right _ _⟩

/-- Helper: whenever barehanded combat reports `Lose`, life is exactly 0. -/
theorem fight_barehanded_lose (s : Scoundrel) (m : Card)
    (h : (s.fight_barehanded m).1 = .Lose) :
    (s.fight_barehanded m).2.life_points = 0 := by
  unfold Scoundrel.fight_barehanded at h ⊢
  split_ifs at h ⊢ with hge
  rfl

/-- Helper: whenever weapon combat reports `Lose`, life is exactly 0. -/
theorem fight_with_weapon_lose (s : Scoundrel) (m : Card) (w : Weapon)
    (h : (s.fight_with_weapon m w).1 = .Lose) :
    (s.fight_with_weapon m w).2.2.life_points = 0 := by
  unfold Scoundrel.fight_with_weapon at h ⊢
  by_cases hcs : Scoundrel.can_slay_with_weapon m w = true
  · rw [if_pos hcs] at h ⊢
    dsimp only [] at h ⊢
    split_ifs at h ⊢ with hatk
    rfl
  · rw [if_neg hcs] at h ⊢
    rcases hfb : s.fight_barehanded m with ⟨st, s2⟩
    rw [hfb] at h
    have h2 := fight_barehanded_lose s m
    rw [hfb] at h2
    exact h2 h

/-- Helper: whenever `handle_combat` reports `Lose`, life is exactly 0. -/
theorem handle_combat_lose (s : Scoundrel) (c : Card)
    (h : (s.handle_combat c).1 = .Lose) :
    (s.handle_combat c).2.life_points = 0 := by
  unfold Scoundrel.handle_combat at h ⊢
  cases hw : s.weapon_equipped with
  | none =>
      rw [hw] at h
      dsimp only [] at h
      rcases hfb : Scoundrel.fight_barehanded { s with weapon_equipped := none } c
        with ⟨st, s2⟩
      rw [hfb] at h
      have h2 := fight_barehanded_lose { s with weapon_equipped := none } c
      rw [hfb] at h2
      dsimp only []
      exact h2 h
  | some w0 =>
      rw [hw] at h
      dsimp only [] at h
      rcases hfw : Scoundrel.fight_with_weapon { s with weapon_equipped := none } c w0
        with ⟨st, wu, s2⟩
      rw [hfw] at h
      have h2 := fight_with_weapon_lose { s with weapon_equipped := none } c w0
      rw [hfw] at h2
      dsimp only []
      rw [hfw]
      exact h2 h

/-- Helper: whenever `play_card` reports `Lose`, life is exactly 0. -/
theorem play_card_lose (s : Scoundrel) (c : Card)
    (h : (s.play_card c).1 = .Lose) : (s.play_card c).2.life_points = 0 := by
  rcases c with ⟨suit, rank⟩
  cases suit
  case Diamonds => exact absurd h (by simp [Scoundrel.play_card])
  case Hearts => exact absurd h (by simp [Scoundrel.play_card])
  case Spades => exact handle_combat_lose s (Card.mk .Spades rank) h
  case Clubs => exact handle_combat_lose s (Card.mk .Clubs rank) h

/-- Helper: barehanded combat does not touch the hand, the flag, or the
weapon slot. -/
theorem fight_barehanded_frame (s : Scoundrel) (m : Card) :
    (s.fight_barehanded m).2.room = s.room ∧
    (s.fight_barehanded m).2.has_run_away = s.has_run_away ∧
    (s.fight_barehanded m).2.weapon_equipped = s.weapon_equipped := by
  unfold Scoundrel.fight_barehanded
  split_ifs <;> exact ⟨rfl, rfl, rfl⟩

/-- Helper: weapon combat does not touch the hand or the flag. -/
theorem fight_with_weapon_frame (s : Scoundrel) (m : Card) (w : Weapon) :
    (s.fight_with_weapon m w).2.2.room = s.room ∧
    (s.fight_with_weapon m w).2.2.has_run_away = s.has_run_away := by
  unfold Scoundrel.fight_with_weapon
  by_cases hcs : Scoundrel.can_slay_with_weapon m w = true
  · rw [if_pos hcs]
    dsimp only []
    split_ifs <;> exact ⟨rfl, rfl⟩
  · rw [if_neg hcs]
    rcases hfb : s.fight_barehanded m with ⟨st, s2⟩
    have h2 := fight_barehanded_frame s m
    rw [hfb] at h2
    exact ⟨h2.1, h2.2.1⟩

/-- Helper: `handle_combat` does not touch the hand or the flag. -/
theorem handle_combat_frame (s : Scoundrel) (c : Card) :
    (s.handle_combat c).2.room = s.room ∧
    (s.handle_combat c).2.has_run_away = s.has_run_away := by
  unfold Scoundrel.handle_combat
  cases hw : s.weapon_equipped with
  | none =>
      rcases hfb : Scoundrel.fight_barehanded { s with weapon_equipped := none } c
        with ⟨st, s2⟩
      have h2 := fight_barehanded_frame { s with weapon_equipped := none } c
      rw [hfb] at h2
      dsimp only []
      exact ⟨h2.1, h2.2.1⟩
  | some w0 =>
      rcases hfw : Scoundrel.fight_with_weapon { s with weapon_equipped := none } c w0
        with ⟨st, wu, s2⟩
      have h2 := fight_with_weapon_frame { s with weapon_equipped := none } c w0
      rw [hfw] at h2
      dsimp only []
      rw [hfw]
      exact ⟨h2.1, h2.2⟩

/-- Helper: `play_card` never touches the hand or the run-away flag. -/
theorem play_card_frame (s : Scoundrel) (c : Card) :
    (s.play_card c).2.room = s.room ∧
    (s.play_card c).2.has_run_away = s.has_run_away := by
  rcases c with ⟨suit, rank⟩
  cases suit
  case Diamonds => exact ⟨rfl, rfl⟩
  case Hearts => exact ⟨rfl, rfl⟩
  case Spades => exact handle_combat_frame s (Card.mk .Spades rank)
  case Clubs => exact handle_combat_frame s (Card.mk .Clubs rank)

/-- Helper: the weapon returned by weapon combat has a strictly-decreasing
history whenever the incoming weapon has, because the history is extended
only behind the `can_slay` gate. -/
theorem fight_with_weapon_chain (s : Scoundrel) (m : Card) (w : Weapon)
    (h : List.Chain' rank_decreasing w.defeated_monsters) :
    List.Chain' rank_decreasing
      (s.fight_with_weapon m w).2.1.defeated_monsters := by
  unfold Scoundrel.fight_with_weapon
  by_cases hcs : Scoundrel.can_slay_with_weapon m w = true
  · rw [if_pos hcs]
    dsimp only []
    have happ : List.Chain' rank_decreasing
        (w.add_defeated_monster m).defeated_monsters := by
      show List.Chain' rank_decreasing (w.defeated_monsters ++ [m])
      refine List.Chain'.append h (List.chain'_singleton m) ?_
      intro x hx y hy
      have hy' : m = y := by simpa using hy
      subst hy'
      exact (can_slay_iff m w).mp hcs x (Option.mem_def.mp hx)
    split_ifs <;> exact happ
  · rw [if_neg hcs]
    rcases hfb : s.fight_barehanded m with ⟨st, s2⟩
    exact h

/-- Helper: `handle_combat` preserves the strictly-decreasing shape of the
equipped weapon history. -/
theorem handle_combat_chain (s : Scoundrel) (c : Card)
    (h : ∀ w, s.weapon_equipped = some w →
      List.Chain' rank_decreasing w.defeated_monsters) :
    ∀ w, (s.handle_combat c).2.weapon_equipped = some w →
      List.Chain' rank_decreasing w.defeated_monsters := by
  intro w hw2
  unfold Scoundrel.handle_combat at hw2
  cases hw : s.weapon_equipped with
  | none =>
      rw [hw] at hw2
      dsimp only [] at hw2
      rcases hfb : Scoundrel.fight_barehanded { s with weapon_equipped := none } c
        with ⟨st, s2⟩
      rw [hfb] at hw2
      have h2 := fight_barehanded_frame { s with weapon_equipped := none } c
      rw [hfb] at h2
      rw [h2.2.2] at hw2
      exact Option.noConfusion hw2
  | some w0 =>
      rw [hw] at hw2
      dsimp only [] at hw2
      have hc := fight_with_weapon_chain { s with weapon_equipped := none } c w0
        (h w0 hw)
      rcases hfw : Scoundrel.fight_with_weapon { s with weapon_equipped := none } c w0
        with ⟨st, wu, s2⟩
      rw [hfw] at hw2 hc
      dsimp only [] at hw2 hc
      have hw2' : some wu = some w := hw2
      injection hw2' with hw2'
      subst hw2'
      exact hc

/-- Helper: `play_card` preserves the strictly-decreasing shape of the
equipped weapon history, through the `can_slay` gate. -/
theorem play_card_chain (s : Scoundrel) (c : Card)
    (h : ∀ w, s.weapon_equipped = some w →
      List.Chain' rank_decreasing w.defeated_monsters) :
    ∀ w, (s.play_card c).2.weapon_equipped = some w →
      List.Chain' rank_decreasing w.defeated_monsters := by
  intro w hw2
  rcases c with ⟨suit, rank⟩
  cases suit
  case Diamonds =>
    have hw2' : some (Weapon.new (Card.mk .Diamonds rank)) = some w := hw2
    injection hw2' with hw2'
    subst hw2'
    exact List.chain'_nil
  case Hearts =>
    exact h w hw2
  case Spades =>
    exact handle_combat_chain s (Card.mk .Spades rank) h w hw2
  case Clubs =>
    exact handle_combat_chain s (Card.mk .Clubs rank) h w hw2

/-- Helper: the combined inductive invariant of every reachable state:
life points in `[0, 20]`, the run-away flag never raised, and a
strictly-decreasing equipped-weapon history. -/
theorem reachable_invariant (s : Scoundrel) (h : Reachable s) :
    (0 ≤ s.life_points ∧ s.life_points ≤ 20) ∧
    s.has_run_away = false ∧
    (∀ w, s.weapon_equipped = some w →
      List.Chain' rank_decreasing w.defeated_monsters) := by
  induction h with
  | new =>
      refine ⟨⟨by decide, by decide⟩, rfl, ?_⟩
      intro w hw
      exact Option.noConfusion hw
  | enter_room hr hstep ih =>
      obtain ⟨hl, hwe, hra⟩ := enter_room_frame hstep
      rw [hl, hwe, hra]
      exact ih
  | play_card hr hstep ih =>
      obtain ⟨⟨h0, h20⟩, hra, hch⟩ := ih
      rename_i s c g s2
      have hs2 : (s.play_card c).2 = s2 := by rw [hstep]
      rw [← hs2]
      exact ⟨play_card_life s c h0 h20,
        (play_card_frame s c).2.trans hra,
        play_card_chain s c hch⟩
  | run_away hr hstep ih =>
      obtain ⟨hra0, h4, hs2⟩ := run_away_ok hstep
      subst hs2
      exact ⟨ih.1, ih.2.1, ih.2.2⟩

/-- C6: in every game state reachable from a fresh game by `enter_room`,
`play_card` and `run_away` calls, life points stay in `[0, 20]`; playing a
Hearts card of rank R at life L sets life to `min(L + R, 20)` (clamped at
20); and any combat result of `Lose` comes with life set to exactly 0,
never a negative value. -/
theorem life_points_invariant (s : Scoundrel) (h : Reachable s) :
    (0 ≤ s.life_points ∧ s.life_points ≤ 20) ∧
    (∀ c, c.suit = Suit.Hearts →
      (s.play_card c).2.life_points = min (s.life_points + c.rank.val) 20) ∧
    (∀ c, (s.play_card c).1 = GameState.Lose →
      (s.play_card c).2.life_points = 0) := by
  refine ⟨(reachable_invariant s h).1, ?_, ?_⟩
  · intro c hc
    rcases c with ⟨suit, rank⟩
    cases hc
    rfl
  · intro c hl
    exact play_card_lose s c hl

/-- C6 witness: a fresh game is reachable, its life is inside `[0, 20]`,
and healing with Hearts-Five there follows the clamped formula. -/
theorem life_points_invariant_witness :
    (0 ≤ Scoundrel.new.life_points ∧ Scoundrel.new.life_points ≤ 20) ∧
    (Scoundrel.new.play_card (Card.new .Hearts .Five)).2.life_points
      = min (Scoundrel.new.life_points + (Card.new .Hearts .Five).rank.val) 20 :=
  ⟨(life_points_invariant Scoundrel.new Reachable.new).1,
   (life_points_invariant Scoundrel.new Reachable.new).2.1
     (Card.new .Hearts .Five) rfl⟩

/-- C7: in every reachable game state the defeated-monster history of the
equipped weapon is strictly decreasing in rank front-to-back in the order added
(maintained by the `can_slay` gate), while `add_defeated_monster` itself is
an unconditional append performing no validation. -/
theorem weapon_history_strictly_decreasing (s : Scoundrel) (h : Reachable s) :
    (∀ w, s.weapon_equipped = some w →
      List.Chain' rank_decreasing w.defeated_monsters) ∧
    (∀ w m, (Weapon.add_defeated_monster w m).defeated_monsters
        = w.defeated_monsters ++ [m]) :=
  ⟨(reachable_invariant s h).2.2, fun _ _ => rfl⟩

/-- C7 witness: after equipping Diamonds-Nine and slaying Clubs-Eight then
Clubs-Five, the reachable state `gWeapon3` carries the strictly decreasing
history `[Clubs-Eight, Clubs-Five]`. -/
theorem weapon_history_strictly_decreasing_witness :
    List.Chain' rank_decreasing
      [Card.new .Clubs .Eight, Card.new .Clubs .Five] :=
  (weapon_history_strictly_decreasing gWeapon3
      (Reachable.play_card
        (Reachable.play_card
          (Reachable.play_card Reachable.new
            (rfl : Scoundrel.new.play_card (Card.new .Diamonds .Nine)
              = ((Scoundrel.new.play_card (Card.new .Diamonds .Nine)).1, gWeapon1)))
          (rfl : gWeapon1.play_card (Card.new .Clubs .Eight)
            = ((gWeapon1.play_card (Card.new .Clubs .Eight)).1, gWeapon2)))
        (rfl : gWeapon2.play_card (Card.new .Clubs .Five)
          = ((gWeapon2.play_card (Card.new .Clubs .Five)).1, gWeapon3)))).1
    ⟨Card.new .Diamonds .Nine, [Card.new .Clubs .Eight, Card.new .Clubs .Five]⟩
    (by decide)

/-- C10: in every reachable game state `has_run_away` is `false` — no
operation ever raises it — so the cannot-run-away-twice branch of
`run_away` is unreachable and a retreat attempt can only be rejected
because the hand does not hold exactly 4 cards. -/
theorem has_run_away_always_false (s : Scoundrel) (h : Reachable s) :
    s.has_run_away = false ∧
    (∀ e, s.run_away = .error e → e = RunAwayError.onlyFromNewRoom) := by
  have hra := (reachable_invariant s h).2.1
  refine ⟨hra, ?_⟩
  intro e he
  unfold Scoundrel.run_away at he
  rw [hra] at he
  dsimp only [] at he
  split at he
  · exact Except.noConfusion he
  · injection he with he
    exact he.symm

/-- C10 witness: the state reached by `new`, `enter_room`, `run_away` — the
exact second-consecutive-retreat scenario — still has the flag down, and
its failing retreat reports the not-a-fresh-room error. -/
theorem has_run_away_always_false_witness :
    afterRetreat1.has_run_away = false ∧
    (∀ e, afterRetreat1.run_away = .error e →
      e = RunAwayError.onlyFromNewRoom) :=
  has_run_away_always_false afterRetreat1
    (Reachable.run_away
      (Reachable.enter_room Reachable.new
        (by decide : Scoundrel.new.enter_room = some (GameState.InGame, afterRoom1)))
      (rfl : afterRoom1.run_away = Except.ok afterRetreat1))

end DandC
